import Mathlib

/-!
Shallow embedding of the collaborative-whiteboard relay server
(`src/server.js`) and client (`public/app.js`,
`public/modules/StateManager.js`), together with proofs that settle the
specification claims about them.
-/

/-- A JavaScript number: either a finite value (modelled as a rational) or
one of the non-finite values `NaN`, `Infinity`, `-Infinity`. -/
inductive JSNum where
  | fin (q : ℚ)
  | nan
  | posInf
  | negInf
deriving DecidableEq

/-- A JavaScript leaf value as it can appear in a payload field. -/
inductive JSVal where
  | num (n : JSNum)
  | str (s : String)
  | boolv (b : Bool)
  | nullv
  | undefVal
deriving DecidableEq

/-- A JavaScript object: an ordered list of key/value bindings; a later
binding for the same key shadows an earlier one, as in object literals
and spreads. -/
structure JSObj where
  fields : List (String × JSVal)
deriving DecidableEq

/-- Property lookup on an object: the last binding for the key wins; a
missing key reads as `undefined`. -/
def JSObj.get (o : JSObj) (k : String) : JSVal :=
  match o.fields.reverse.find? (fun p => p.1 == k) with
  | some p => p.2
  | none => .undefVal

/-- An arbitrary inbound payload: either a primitive value (carrying its
truthiness) or an object. -/
inductive Payload where
  | prim (truthy : Bool)
  | obj (o : JSObj)
deriving DecidableEq

/-- Property access on an arbitrary payload; primitives have no own
properties, so every access yields `undefined`. -/
def Payload.getProp : Payload → String → JSVal
  | .prim _, _ => .undefVal
  | .obj o, k => o.get k

/-- JavaScript truthiness of the payload, as tested by `data && ...`;
objects are always truthy. -/
def Payload.truthy : Payload → Bool
  | .prim b => b
  | .obj _ => true

/-- The test `typeof v === 'number'`; true for `NaN` and the infinities. -/
def typeofNumber : JSVal → Bool
  | .num _ => true
  | _ => false

/-- The test `typeof v === 'string'`. -/
def typeofString : JSVal → Bool
  | .str _ => true
  | _ => false

/-- JavaScript comparison `v >= c` against a numeric constant, on the
values that reach it in the validator (`NaN` compares false,
`Infinity >= c` holds, `-Infinity >= c` fails). -/
def jsGe : JSVal → ℚ → Bool
  | .num (.fin q), c => decide (c ≤ q)
  | .num .posInf, _ => true
  | _, _ => false

/-- JavaScript comparison `v <= c` against a numeric constant. -/
def jsLe : JSVal → ℚ → Bool
  | .num (.fin q), c => decide (q ≤ c)
  | .num .negInf, _ => true
  | _, _ => false

/-- The server-side draw-event validator `isValidDrawData` from
`src/server.js`: requires `typeof 'number'` on the four coordinates and
the brush size, `typeof 'string'` on the color, and the brush-size range
check `1 <= brushSize <= 20`.  There is no finiteness check on the
coordinates. -/
def isValidDrawData (data : Payload) : Bool :=
  data.truthy &&
  typeofNumber (data.getProp "x0") &&
  typeofNumber (data.getProp "y0") &&
  typeofNumber (data.getProp "x1") &&
  typeofNumber (data.getProp "y1") &&
  typeofString (data.getProp "color") &&
  typeofNumber (data.getProp "brushSize") &&
  jsGe (data.getProp "brushSize") 1 &&
  jsLe (data.getProp "brushSize") 20

/-- Target set of a socket.io emission: `io.emit` reaches every connected
socket, `socket.broadcast.emit` every socket but the sender, and
`socket.emit` the one socket. -/
inductive Target where
  | toAll
  | toAllExcept (id : String)
  | toOne (id : String)
deriving DecidableEq

/-- Body of a server-emitted message. -/
inductive MsgBody where
  | count (n : ℕ)
  | drawData (o : JSObj)
  | clear
  | welcome (id : String) (n : ℕ)
deriving DecidableEq

/-- One message emitted by the server. -/
structure ServerMsg where
  target : Target
  event : String
  body : MsgBody
deriving DecidableEq

/-- Server state: the `connectedUsers` registry, reduced to the socket ids
(the stored timestamps are diagnostic only and unread by the modelled
behaviour). -/
structure ServerState where
  connectedUsers : List String
deriving DecidableEq

/-- The enrichment `{...lineData, senderId: socket.id, timestamp: ...}`
performed by the draw handler: the spread copies every client field, and
the two trailing bindings shadow any client-supplied `senderId` or
`timestamp`. -/
def enrich (o : JSObj) (senderId timestamp : String) : JSObj :=
  ⟨o.fields ++ [("senderId", .str senderId), ("timestamp", .str timestamp)]⟩

/-- The connection handler: register the socket, broadcast the new count
to all clients, and send a welcome message to the new client only. -/
def handleConnect (s : ServerState) (id : String) : ServerState × List ServerMsg :=
  let s1 : ServerState := ⟨s.connectedUsers ++ [id]⟩
  (s1, [⟨.toAll, "user-count", .count s1.connectedUsers.length⟩,
        ⟨.toOne id, "welcome", .welcome id s1.connectedUsers.length⟩])

/-- The `draw` handler: validate; on success broadcast the enriched data
to every client but the sender; on failure emit nothing. -/
def handleDraw (s : ServerState) (sender now : String) (p : Payload) :
    ServerState × List ServerMsg :=
  if isValidDrawData p then
    match p with
    | .obj o => (s, [⟨.toAllExcept sender, "draw", .drawData (enrich o sender now)⟩])
    | .prim _ => (s, [])
  else (s, [])

/-- The `clear-canvas` handler: `io.emit` to every connected client,
sender included. -/
def handleClearCanvas (s : ServerState) : ServerState × List ServerMsg :=
  (s, [⟨.toAll, "clear-canvas", .clear⟩])

/-- The `get-user-count` handler: reply with the current registry size to
the requesting socket only. -/
def handleGetUserCount (s : ServerState) (id : String) : ServerState × List ServerMsg :=
  (s, [⟨.toOne id, "user-count", .count s.connectedUsers.length⟩])

/-- The disconnect handler: drop the socket from the registry and
broadcast the new count to all remaining clients. -/
def handleDisconnect (s : ServerState) (id : String) : ServerState × List ServerMsg :=
  let s1 : ServerState := ⟨s.connectedUsers.erase id⟩
  (s1, [⟨.toAll, "user-count", .count s1.connectedUsers.length⟩])

/-- Whether a message emitted while `conn` lists the connected sockets is
delivered to client `c`. -/
def delivered (conn : List String) (m : ServerMsg) (c : String) : Bool :=
  decide (c ∈ conn) &&
    (match m.target with
     | .toAll => true
     | .toAllExcept x => decide (c ≠ x)
     | .toOne x => decide (c = x))

/-- The inbound events the server reacts to. -/
inductive ServerEvent where
  | connect (id : String)
  | disconnect (id : String)
  | draw (id now : String) (p : Payload)
  | clearReq (id : String)
  | getCount (id : String)
deriving DecidableEq

/-- Dispatch of one inbound event. -/
def serverStep (s : ServerState) : ServerEvent → ServerState × List ServerMsg
  | .connect id => handleConnect s id
  | .disconnect id => handleDisconnect s id
  | .draw id now p => handleDraw s id now p
  | .clearReq _ => handleClearCanvas s
  | .getCount id => handleGetUserCount s id

/-- Run the server over a trace of events, accumulating every emitted
message in order. -/
def runServer (s : ServerState) : List ServerEvent → ServerState × List ServerMsg
  | [] => (s, [])
  | e :: es =>
    let r1 := serverStep s e
    let r2 := runServer r1.1 es
    (r2.1, r1.2 ++ r2.2)

/-- Well-formed traces relative to the currently connected ids: every
connect brings a fresh socket id and every disconnect an id that is
currently connected, as the transport guarantees. -/
def wfTrace : List ServerEvent → List String → Bool
  | [], _ => true
  | .connect id :: es, users => !decide (id ∈ users) && wfTrace es (users ++ [id])
  | .disconnect id :: es, users => decide (id ∈ users) && wfTrace es (users.erase id)
  | _ :: es, users => wfTrace es users

/-- Number of connect events in a trace. -/
def countConnects : List ServerEvent → ℕ
  | [] => 0
  | .connect _ :: es => countConnects es + 1
  | _ :: es => countConnects es

/-- Number of disconnect events in a trace. -/
def countDisconnects : List ServerEvent → ℕ
  | [] => 0
  | .disconnect _ :: es => countDisconnects es + 1
  | _ :: es => countDisconnects es

/-- The user-count value a message broadcasts to all clients, if any. -/
def countBroadcast1 (m : ServerMsg) : Option ℕ :=
  match m.target, m.body with
  | .toAll, .count n => if m.event = "user-count" then some n else none
  | _, _ => none

/-- The user-count values broadcast to all clients, in emission order. -/
def countBroadcasts (ms : List ServerMsg) : List ℕ :=
  ms.filterMap countBroadcast1

/-- Whether an event is a connection-lifecycle event. -/
def isConnEvent : ServerEvent → Bool
  | .connect _ => true
  | .disconnect _ => true
  | _ => false

/-- Whether a trace contains a connect or disconnect. -/
def hasConnOrDisc (es : List ServerEvent) : Bool :=
  es.any isConnEvent

/-- Claim C1's validity predicate, following the spec sentence: the four
coordinates must be finite numbers, the color a string, and the brush
size a number in `[1, 20]`. -/
def specValidFinite (p : Payload) : Bool :=
  match p with
  | .prim _ => false
  | .obj o =>
    (match o.get "x0" with | .num (.fin _) => true | _ => false) &&
    (match o.get "y0" with | .num (.fin _) => true | _ => false) &&
    (match o.get "x1" with | .num (.fin _) => true | _ => false) &&
    (match o.get "y1" with | .num (.fin _) => true | _ => false) &&
    typeofString (o.get "color") &&
    (match o.get "brushSize" with
     | .num (.fin q) => decide (1 ≤ q) && decide (q ≤ 20)
     | _ => false)

/-- The amended validity predicate: identical to C1's except that the four
coordinates need only be of number type, so `NaN` and the infinities are
accepted; the brush-size conjunct (a number with `1 ≤ bs ≤ 20`) forces the
brush size itself to be finite. -/
def specValidAmended (p : Payload) : Bool :=
  match p with
  | .prim _ => false
  | .obj o =>
    typeofNumber (o.get "x0") &&
    typeofNumber (o.get "y0") &&
    typeofNumber (o.get "x1") &&
    typeofNumber (o.get "y1") &&
    typeofString (o.get "color") &&
    (match o.get "brushSize" with
     | .num (.fin q) => decide (1 ≤ q) && decide (q ≤ 20)
     | _ => false)

/-- A payload whose `x0` is `Infinity` but is otherwise the spec's own
accepted example. -/
def pInfX0 : Payload :=
  .obj ⟨[("x0", .num .posInf), ("y0", .num (.fin 20)), ("x1", .num (.fin 150)),
         ("y1", .num (.fin 200)), ("color", .str "#3366FF"),
         ("brushSize", .num (.fin 4))]⟩

/-- A payload missing the `color` field. -/
def pNoColor : Payload :=
  .obj ⟨[("x0", .num (.fin 10)), ("y0", .num (.fin 20)), ("x1", .num (.fin 150)),
         ("y1", .num (.fin 200)), ("brushSize", .num (.fin 4))]⟩

/-- The brush-size conjunct of the validator coincides with the spec's
"a number with 1 ≤ brushSize ≤ 20". -/
theorem brushRange_eq (v : JSVal) :
    (typeofNumber v && jsGe v 1 && jsLe v 20) =
      (match v with
       | .num (.fin q) => decide (1 ≤ q) && decide (q ≤ 20)
       | _ => false) := by
  cases v with
  | num n => cases n <;> simp [typeofNumber, jsGe, jsLe]
  | str s => rfl
  | boolv b => rfl
  | nullv => rfl
  | undefVal => rfl

/-- Claim C1 counterexample: the validator accepts a payload with a
non-finite `x0` (and the server broadcasts it), while the claim demands
rejection of every non-finite coordinate. -/
theorem c1_counterexample :
    isValidDrawData pInfX0 = true ∧ specValidFinite pInfX0 = false ∧
    (handleDraw ⟨["a", "b"]⟩ "a" "t0" pInfX0).2 ≠ [] := by decide

/-- Claim C1 (amended): the validator returns true iff `x0, y0, x1, y1`
are numbers (`typeof 'number'`; `NaN` and the infinities pass), `color` is
a string and `brushSize` is a number with `1 ≤ brushSize ≤ 20`; whenever
it returns false, the draw handler broadcasts nothing. -/
theorem c1_validator_amended (p : Payload) (s : ServerState) (sender now : String) :
    (isValidDrawData p = true ↔ specValidAmended p = true) ∧
    (isValidDrawData p = false → (handleDraw s sender now p).2 = []) := by
  constructor
  · cases p with
    | prim b =>
      simp [isValidDrawData, specValidAmended, Payload.truthy, Payload.getProp,
        typeofNumber]
    | obj o =>
      have h : isValidDrawData (.obj o) = specValidAmended (.obj o) := by
        simp only [isValidDrawData, specValidAmended, Payload.truthy, Payload.getProp,
          ← brushRange_eq, Bool.true_and, Bool.and_assoc]
      rw [h]
  · intro h
    simp [handleDraw, h]

/-- Claim C1 witness: on the payload missing `color` the validator rejects
and no message is broadcast. -/
theorem c1_validator_amended_witness :
    (isValidDrawData pNoColor = true ↔ specValidAmended pNoColor = true) ∧
    (handleDraw ⟨["a", "b"]⟩ "a" "t0" pNoColor).2 = [] := by
  have h := c1_validator_amended pNoColor ⟨["a", "b"]⟩ "a" "t0"
  exact ⟨h.1, h.2 (by decide)⟩

/-- A payload matching the spec's accepted example. -/
def pValid : Payload :=
  .obj ⟨[("x0", .num (.fin 10)), ("y0", .num (.fin 20)), ("x1", .num (.fin 150)),
         ("y1", .num (.fin 200)), ("color", .str "#3366FF"),
         ("brushSize", .num (.fin 4))]⟩

/-- Claim C2: a valid draw event is broadcast to every other connected
client and is never delivered back to the sender. -/
theorem c2_no_echo (conn : List String) (sender now : String) (p : Payload)
    (hval : isValidDrawData p = true) :
    (∀ m ∈ (handleDraw ⟨conn⟩ sender now p).2, delivered conn m sender = false) ∧
    (∀ c ∈ conn, c ≠ sender →
      ∃ m ∈ (handleDraw ⟨conn⟩ sender now p).2,
        m.event = "draw" ∧ delivered conn m c = true) := by
  cases p with
  | prim b =>
    simp [isValidDrawData, Payload.truthy, Payload.getProp, typeofNumber] at hval
  | obj o =>
    constructor
    · intro m hm
      simp only [handleDraw, hval, if_true, List.mem_singleton] at hm
      subst hm
      simp [delivered]
    · intro c hc hcs
      refine ⟨⟨.toAllExcept sender, "draw", .drawData (enrich o sender now)⟩, ?_, rfl, ?_⟩
      · simp [handleDraw, hval]
      · simp [delivered, hc, hcs]

/-- Claim C2 witness: with clients `a` and `b`, a valid draw from `a` is
delivered to `b` and not echoed to `a`. -/
theorem c2_no_echo_witness :
    (∀ m ∈ (handleDraw ⟨["a", "b"]⟩ "a" "t0" pValid).2, delivered ["a", "b"] m "a" = false) ∧
    (∀ c ∈ ["a", "b"], c ≠ "a" →
      ∃ m ∈ (handleDraw ⟨["a", "b"]⟩ "a" "t0" pValid).2,
        m.event = "draw" ∧ delivered ["a", "b"] m c = true) :=
  c2_no_echo ["a", "b"] "a" "t0" pValid (by decide)

/-- Claim C10: a payload whose six required fields are well-typed and in
range is accepted no matter what extra properties it carries; the
broadcast forwards every property other than `senderId` and `timestamp`
verbatim, while `senderId` and `timestamp` always carry the
server-assigned values, shadowing any client-supplied binding. -/
theorem c10_enrichment (o : JSObj) (sender now : String) (conn : List String) (k : String)
    (hx0 : typeofNumber (o.get "x0") = true) (hy0 : typeofNumber (o.get "y0") = true)
    (hx1 : typeofNumber (o.get "x1") = true) (hy1 : typeofNumber (o.get "y1") = true)
    (hc : typeofString (o.get "color") = true)
    (hb : typeofNumber (o.get "brushSize") = true)
    (hge : jsGe (o.get "brushSize") 1 = true) (hle : jsLe (o.get "brushSize") 20 = true)
    (hk1 : k ≠ "senderId") (hk2 : k ≠ "timestamp") :
    isValidDrawData (.obj o) = true ∧
    (enrich o sender now).get k = o.get k ∧
    (enrich o sender now).get "senderId" = .str sender ∧
    (enrich o sender now).get "timestamp" = .str now ∧
    (handleDraw ⟨conn⟩ sender now (.obj o)).2 =
      [⟨.toAllExcept sender, "draw", .drawData (enrich o sender now)⟩] := by
  have hval : isValidDrawData (.obj o) = true := by
    simp [isValidDrawData, Payload.truthy, Payload.getProp, hx0, hy0, hx1, hy1, hc,
      hb, hge, hle]
  have hs1 : (("senderId" : String) == k) = false := beq_eq_false_iff_ne.mpr (Ne.symm hk1)
  have hs2 : (("timestamp" : String) == k) = false := beq_eq_false_iff_ne.mpr (Ne.symm hk2)
  refine ⟨hval, ?_, ?_, ?_, ?_⟩
  · simp [JSObj.get, enrich, List.find?, hs1, hs2]
  · simp [JSObj.get, enrich, List.find?]
  · simp [JSObj.get, enrich, List.find?]
  · simp [handleDraw, hval]

/-- An object with the six valid fields plus an extra property `foo` and a
client-forged `senderId`. -/
def oExtra : JSObj :=
  ⟨[("senderId", .str "forged"), ("foo", .str "bar"), ("x0", .num (.fin 10)),
    ("y0", .num (.fin 20)), ("x1", .num (.fin 150)), ("y1", .num (.fin 200)),
    ("color", .str "#3366FF"), ("brushSize", .num (.fin 4))]⟩

/-- Claim C10 witness: the decorated payload `oExtra` is accepted, its
extra property `foo` is forwarded verbatim, and the forged `senderId` is
replaced by the server-assigned one. -/
theorem c10_enrichment_witness :
    isValidDrawData (.obj oExtra) = true ∧
    (enrich oExtra "srv" "t1").get "foo" = oExtra.get "foo" ∧
    (enrich oExtra "srv" "t1").get "senderId" = .str "srv" ∧
    (enrich oExtra "srv" "t1").get "timestamp" = .str "t1" ∧
    (handleDraw ⟨["a", "b"]⟩ "srv" "t1" (.obj oExtra)).2 =
      [⟨.toAllExcept "srv", "draw", .drawData (enrich oExtra "srv" "t1")⟩] :=
  c10_enrichment oExtra "srv" "t1" ["a", "b"] "foo" (by decide) (by decide) (by decide)
    (by decide) (by decide) (by decide) (by decide) (by decide) (by decide) (by decide)

/-- Unfolding of `runServer` on a cons trace. -/
theorem runServer_cons (s : ServerState) (e : ServerEvent) (es : List ServerEvent) :
    runServer s (e :: es) =
      ((runServer (serverStep s e).1 es).1,
        (serverStep s e).2 ++ (runServer (serverStep s e).1 es).2) := rfl

/-- The draw handler never touches the registry. -/
theorem handleDraw_state (s : ServerState) (a b : String) (p : Payload) :
    (handleDraw s a b p).1 = s := by
  unfold handleDraw
  split
  · cases p <;> rfl
  · rfl

/-- The user-count broadcasts of concatenated message lists concatenate. -/
theorem countBroadcasts_append (a b : List ServerMsg) :
    countBroadcasts (a ++ b) = countBroadcasts a ++ countBroadcasts b := by
  simp [countBroadcasts, List.filterMap_append]

/-- Over a well-formed trace, the registry length changes by exactly the
number of connects minus the number of disconnects. -/
theorem runServer_length (es : List ServerEvent) :
    ∀ u : List String, wfTrace es u = true →
      (runServer ⟨u⟩ es).1.connectedUsers.length + countDisconnects es =
        u.length + countConnects es := by
  induction es with
  | nil =>
    intro u _
    simp [runServer, countConnects, countDisconnects]
  | cons e es ih =>
    intro u hwf
    cases e with
    | connect id =>
      simp only [wfTrace, Bool.and_eq_true] at hwf
      have h := ih (u ++ [id]) hwf.2
      simp only [runServer_cons, serverStep, handleConnect, countConnects,
        countDisconnects]
      simp only [List.length_append, List.length_singleton] at h
      omega
    | disconnect id =>
      simp only [wfTrace, Bool.and_eq_true, decide_eq_true_eq] at hwf
      have h := ih (u.erase id) hwf.2
      have hlen : (u.erase id).length = u.length - 1 :=
        List.length_erase_of_mem hwf.1
      have hpos : 0 < u.length := List.length_pos.mpr (List.ne_nil_of_mem hwf.1)
      simp only [runServer_cons, serverStep, handleDisconnect, countConnects,
        countDisconnects]
      omega
    | draw a b p =>
      simp only [wfTrace] at hwf
      have h := ih u hwf
      simp only [runServer_cons, serverStep, countConnects, countDisconnects]
      rw [handleDraw_state]
      omega
    | clearReq a =>
      simp only [wfTrace] at hwf
      have h := ih u hwf
      simp only [runServer_cons, serverStep, handleClearCanvas, countConnects,
        countDisconnects]
      omega
    | getCount a =>
      simp only [wfTrace] at hwf
      have h := ih u hwf
      simp only [runServer_cons, serverStep, handleGetUserCount, countConnects,
        countDisconnects]
      omega

/-- Over a well-formed trace, either no user-count was ever broadcast (and
then the trace held no connect or disconnect and the registry is
unchanged), or the most recent user-count broadcast equals the current
registry size. -/
theorem runServer_lastBroadcast (es : List ServerEvent) :
    ∀ u : List String, wfTrace es u = true →
      (countBroadcasts (runServer ⟨u⟩ es).2 = [] ∧ hasConnOrDisc es = false ∧
        (runServer ⟨u⟩ es).1.connectedUsers = u) ∨
      (countBroadcasts (runServer ⟨u⟩ es).2).getLast? =
        some (runServer ⟨u⟩ es).1.connectedUsers.length := by
  induction es with
  | nil =>
    intro u _
    left
    simp [runServer, countBroadcasts, hasConnOrDisc]
  | cons e es ih =>
    intro u hwf
    cases e with
    | connect id =>
      simp only [wfTrace, Bool.and_eq_true] at hwf
      right
      simp only [runServer_cons, serverStep, handleConnect, countBroadcasts_append]
      have hstep : countBroadcasts
          [⟨.toAll, "user-count", .count (u ++ [id]).length⟩,
           ⟨.toOne id, "welcome", .welcome id (u ++ [id]).length⟩] =
          [(u ++ [id]).length] := by
        simp [countBroadcasts, countBroadcast1]
      rw [hstep]
      rcases ih (u ++ [id]) hwf.2 with ⟨hb, _, hstate⟩ | hlast
      · rw [hb, hstate]
        simp
      · have hne : countBroadcasts (runServer ⟨u ++ [id]⟩ es).2 ≠ [] := by
          intro hnil
          rw [hnil] at hlast
          exact Option.noConfusion hlast
        rw [List.getLast?_append_of_ne_nil _ hne]
        exact hlast
    | disconnect id =>
      simp only [wfTrace, Bool.and_eq_true, decide_eq_true_eq] at hwf
      right
      simp only [runServer_cons, serverStep, handleDisconnect, countBroadcasts_append]
      have hstep : countBroadcasts
          [⟨.toAll, "user-count", .count (u.erase id).length⟩] =
          [(u.erase id).length] := by
        simp [countBroadcasts, countBroadcast1]
      rw [hstep]
      rcases ih (u.erase id) hwf.2 with ⟨hb, _, hstate⟩ | hlast
      · rw [hb, hstate]
        simp
      · have hne : countBroadcasts (runServer ⟨u.erase id⟩ es).2 ≠ [] := by
          intro hnil
          rw [hnil] at hlast
          exact Option.noConfusion hlast
        rw [List.getLast?_append_of_ne_nil _ hne]
        exact hlast
    | draw a b p =>
      simp only [wfTrace] at hwf
      have hstep : countBroadcasts (handleDraw ⟨u⟩ a b p).2 = [] := by
        unfold handleDraw
        split
        · cases p with
          | obj o => simp [countBroadcasts, countBroadcast1]
          | prim t => simp [countBroadcasts]
        · simp [countBroadcasts]
      have hrec := ih u hwf
      simp only [runServer_cons, serverStep, countBroadcasts_append, hstep,
        List.nil_append, handleDraw_state, hasConnOrDisc, List.any_cons,
        isConnEvent, Bool.false_or]
      simpa [hasConnOrDisc] using hrec
    | clearReq a =>
      simp only [wfTrace] at hwf
      have hrec := ih u hwf
      simp only [runServer_cons, serverStep, handleClearCanvas,
        countBroadcasts_append]
      have hstep : countBroadcasts [(⟨.toAll, "clear-canvas", .clear⟩ : ServerMsg)] = [] := by
        simp [countBroadcasts, countBroadcast1]
      simp only [hstep, List.nil_append, hasConnOrDisc, List.any_cons, isConnEvent,
        Bool.false_or]
      simpa [hasConnOrDisc] using hrec
    | getCount a =>
      simp only [wfTrace] at hwf
      have hrec := ih u hwf
      simp only [runServer_cons, serverStep, handleGetUserCount,
        countBroadcasts_append]
      have hstep : countBroadcasts
          [(⟨.toOne a, "user-count", .count u.length⟩ : ServerMsg)] = [] := by
        simp [countBroadcasts, countBroadcast1]
      simp only [hstep, List.nil_append, hasConnOrDisc, List.any_cons, isConnEvent,
        Bool.false_or]
      simpa [hasConnOrDisc] using hrec

/-- Claim C4: over any well-formed trace starting from an empty registry,
the final registry size is the number of connects minus the number of
disconnects; whenever the trace held any connect or disconnect, the most
recently broadcast user-count equals that current size; every connect and
every disconnect re-broadcasts the new count to all clients; and an
explicit `get-user-count` request is answered with the current count, to
the requesting client only. -/
theorem c4_user_count (es : List ServerEvent) (s : ServerState) (id : String)
    (hwf : wfTrace es [] = true) :
    (runServer ⟨[]⟩ es).1.connectedUsers.length =
      countConnects es - countDisconnects es ∧
    (hasConnOrDisc es = true →
      (countBroadcasts (runServer ⟨[]⟩ es).2).getLast? =
        some (runServer ⟨[]⟩ es).1.connectedUsers.length) ∧
    (⟨.toAll, "user-count", .count (serverStep s (.connect id)).1.connectedUsers.length⟩ ∈
        (serverStep s (.connect id)).2) ∧
    (⟨.toAll, "user-count", .count (serverStep s (.disconnect id)).1.connectedUsers.length⟩ ∈
        (serverStep s (.disconnect id)).2) ∧
    (serverStep s (.getCount id)).2 =
      [⟨.toOne id, "user-count", .count s.connectedUsers.length⟩] := by
  refine ⟨?_, ?_, ?_, ?_, rfl⟩
  · have h := runServer_length es [] hwf
    simp only [List.length_nil] at h
    omega
  · intro hc
    rcases runServer_lastBroadcast es [] hwf with ⟨_, hnone, _⟩ | hlast
    · rw [hc] at hnone
      exact absurd hnone (by simp)
    · exact hlast
  · simp [serverStep, handleConnect]
  · simp [serverStep, handleDisconnect]

/-- A trace with three connects and one subsequent disconnect. -/
def traceNM : List ServerEvent :=
  [.connect "a", .connect "b", .connect "c", .disconnect "a"]

/-- Claim C4 witness: on the concrete trace `traceNM` (N = 3, M = 1) the
final count is 2, the last broadcast says 2, both lifecycle steps
re-broadcast, and a `get-user-count` is answered to the requester only. -/
theorem c4_user_count_witness :
    (runServer ⟨[]⟩ traceNM).1.connectedUsers.length =
      countConnects traceNM - countDisconnects traceNM ∧
    (hasConnOrDisc traceNM = true →
      (countBroadcasts (runServer ⟨[]⟩ traceNM).2).getLast? =
        some (runServer ⟨[]⟩ traceNM).1.connectedUsers.length) ∧
    (⟨.toAll, "user-count",
        .count (serverStep ⟨["x"]⟩ (.connect "y")).1.connectedUsers.length⟩ ∈
        (serverStep ⟨["x"]⟩ (.connect "y")).2) ∧
    (⟨.toAll, "user-count",
        .count (serverStep ⟨["x"]⟩ (.disconnect "y")).1.connectedUsers.length⟩ ∈
        (serverStep ⟨["x"]⟩ (.disconnect "y")).2) ∧
    (serverStep ⟨["x"]⟩ (.getCount "y")).2 =
      [⟨.toOne "y", "user-count", .count (ServerState.mk ["x"]).connectedUsers.length⟩] :=
  c4_user_count traceNM ⟨["x"]⟩ "y" (by decide)

/-- A line segment as built by the client draw function: endpoints, color,
brush size, and the client-side timestamp. -/
structure LineData where
  x0 : ℚ
  y0 : ℚ
  x1 : ℚ
  y1 : ℚ
  color : String
  brushSize : ℚ
  timestamp : ℤ
deriving DecidableEq

/-- Client-side application state (the `state` object of `public/app.js`),
restricted to the fields the modelled operations read or write.  `canvas`
records the segments rendered since the last canvas wipe. -/
structure ClientState where
  isDrawing : Bool
  lastX : ℚ
  lastY : ℚ
  currentColor : String
  brushSize : ℚ
  localHistory : List LineData
  isConnected : Bool
  lastEmitTime : ℤ
  throttleDelay : ℤ
  pendingDraws : List LineData
  offlineBuffer : List LineData
  canvas : List LineData
  undoDisabled : Bool
  linesDrawn : ℕ
deriving DecidableEq

/-- The initial client state of `public/app.js`. -/
def initialClient : ClientState where
  isDrawing := false
  lastX := 0
  lastY := 0
  currentColor := "#000000"
  brushSize := 4
  localHistory := []
  isConnected := false
  lastEmitTime := 0
  throttleDelay := 16
  pendingDraws := []
  offlineBuffer := []
  canvas := []
  undoDisabled := true
  linesDrawn := 0

/-- Observable side effects of a client operation, in order. -/
inductive ClientEffect where
  | emitDraw (ld : LineData)
  | emitClearCanvas
  | emitGetUserCount
  | toast (msg : String)
deriving DecidableEq

/-- Toast shown when the offline capacity guard trips. -/
def offlineLimitMsg : String :=
  "Too many offline drawings. Please wait for reconnection."

/-- Toast shown on the first offline drawing. -/
def offlineFirstMsg : String := "Drawing offline. Will sync when reconnected."

/-- Toast shown after the offline buffer is flushed. -/
def syncedMsg : String := "offline drawing(s) synced!"

/-- Toast shown on (re)connection. -/
def restoredMsg : String := "Connection restored!"

/-- `startDrawing` from `public/app.js`: when disconnected with more than
100 buffered segments, refuse to start a stroke (with a notice);
otherwise begin the stroke and reset the per-stroke throttle state. -/
def startDrawing (s : ClientState) (x y : ℚ) : ClientState × List ClientEffect :=
  if !s.isConnected && decide (100 < s.offlineBuffer.length) then
    (s, [.toast offlineLimitMsg])
  else
    ({ s with isDrawing := true, lastX := x, lastY := y,
              lastEmitTime := 0, pendingDraws := [] }, [])

/-- `handleTouchStart` from `public/app.js`: same capacity guard but
silent, then delegates to `startDrawing`. -/
def handleTouchStart (s : ClientState) (x y : ℚ) : ClientState × List ClientEffect :=
  if !s.isConnected && decide (100 < s.offlineBuffer.length) then (s, [])
  else startDrawing s x y

/-- `draw` from `public/app.js`: while a stroke is active, build the
segment from the last position, always render it locally and append it to
local history; when connected emit it unthrottled (the throttled branch is
commented out, "TEMPORARY"); when offline append it to the offline buffer
(with a notice on the first buffered segment). -/
def draw (s : ClientState) (x y : ℚ) (now : ℤ) : ClientState × List ClientEffect :=
  if !s.isDrawing then (s, [])
  else
    let ld : LineData := ⟨s.lastX, s.lastY, x, y, s.currentColor, s.brushSize, now⟩
    let s1 := { s with canvas := s.canvas ++ [ld],
                       localHistory := s.localHistory ++ [ld],
                       undoDisabled := false }
    if s.isConnected then
      ({ s1 with linesDrawn := s1.linesDrawn + 1, lastX := x, lastY := y },
       [.emitDraw ld])
    else
      let s2 := { s1 with offlineBuffer := s1.offlineBuffer ++ [ld] }
      ({ s2 with linesDrawn := s2.linesDrawn + 1, lastX := x, lastY := y },
       if s2.offlineBuffer.length = 1 then [.toast offlineFirstMsg] else [])

/-- The throttled `draw` of the earlier client version (`part_007`): same
as `draw` except that, when connected, the segment is emitted only if at
least `throttleDelay` elapsed since `lastEmitTime`, which the emission
then updates. -/
def drawThrottled (s : ClientState) (x y : ℚ) (now : ℤ) :
    ClientState × List ClientEffect :=
  if !s.isDrawing then (s, [])
  else
    let ld : LineData := ⟨s.lastX, s.lastY, x, y, s.currentColor, s.brushSize, now⟩
    let s1 := { s with canvas := s.canvas ++ [ld],
                       localHistory := s.localHistory ++ [ld],
                       undoDisabled := false }
    if s.isConnected then
      if s.throttleDelay ≤ now - s.lastEmitTime then
        ({ s1 with lastEmitTime := now, pendingDraws := [],
                   linesDrawn := s1.linesDrawn + 1, lastX := x, lastY := y },
         [.emitDraw ld])
      else
        ({ s1 with linesDrawn := s1.linesDrawn + 1, lastX := x, lastY := y }, [])
    else
      let s2 := { s1 with offlineBuffer := s1.offlineBuffer ++ [ld] }
      ({ s2 with linesDrawn := s2.linesDrawn + 1, lastX := x, lastY := y },
       if s2.offlineBuffer.length = 1 then [.toast offlineFirstMsg] else [])

/-- `handleUndo` from `public/app.js`: with non-empty history, pop the
last history entry, pop the offline buffer too when it is non-empty,
wipe the canvas and redraw the remaining history in order; nothing is
sent over the network. -/
def handleUndo (s : ClientState) : ClientState × List ClientEffect :=
  if s.localHistory.length = 0 then (s, [])
  else
    let h1 := s.localHistory.dropLast
    let b1 := if 0 < s.offlineBuffer.length then s.offlineBuffer.dropLast
              else s.offlineBuffer
    ({ s with localHistory := h1, offlineBuffer := b1, canvas := h1,
              undoDisabled := decide (h1.length = 0) }, [])

/-- The client handler for the server's `clear-canvas` event
(`public/app.js`): wipe the canvas, empty local history and the offline
buffer, disable undo. -/
def onClearCanvas (s : ClientState) : ClientState × List ClientEffect :=
  ({ s with canvas := [], localHistory := [], offlineBuffer := [],
            undoDisabled := true }, [])

/-- `flushOfflineBuffer` from `public/app.js`: when connected with a
non-empty buffer, schedule every buffered segment for emission in buffer
order (staggered by 50 ms per item) and clear the buffer at once. -/
def flushOfflineBuffer (s : ClientState) : ClientState × List ClientEffect :=
  if s.offlineBuffer.length = 0 || !s.isConnected then (s, [])
  else
    ({ s with offlineBuffer := [] },
     s.offlineBuffer.map (fun ld => .emitDraw ld) ++ [.toast syncedMsg])

/-- The client `connect` handler (`public/app.js`): mark connected, show
the restored notice, request the user count, and flush the offline
buffer. -/
def onConnect (s : ClientState) : ClientState × List ClientEffect :=
  let s1 := { s with isConnected := true }
  let r := flushOfflineBuffer s1
  (r.1, [.toast restoredMsg, .emitGetUserCount] ++ r.2)

/-- Fold `draw` over a list of pointer samples `(x, y, time)`. -/
def applyDraws (s : ClientState) : List (ℚ × ℚ × ℤ) → ClientState × List ClientEffect
  | [] => (s, [])
  | (x, y, t) :: ps =>
    let r1 := draw s x y t
    let r2 := applyDraws r1.1 ps
    (r2.1, r1.2 ++ r2.2)

/-- Fold `drawThrottled` over a list of pointer samples. -/
def applyThrottledDraws (s : ClientState) :
    List (ℚ × ℚ × ℤ) → ClientState × List ClientEffect
  | [] => (s, [])
  | (x, y, t) :: ps =>
    let r1 := drawThrottled s x y t
    let r2 := applyThrottledDraws r1.1 ps
    (r2.1, r1.2 ++ r2.2)

/-- The segments a list of pointer samples creates, in creation order. -/
def producedSegs (s : ClientState) : List (ℚ × ℚ × ℤ) → List LineData
  | [] => []
  | (x, y, t) :: ps =>
    ⟨s.lastX, s.lastY, x, y, s.currentColor, s.brushSize, t⟩ ::
      producedSegs (draw s x y t).1 ps

/-- The draw events among a list of client effects, in order. -/
def drawEmits (fx : List ClientEffect) : List LineData :=
  fx.filterMap (fun e => match e with | .emitDraw ld => some ld | _ => none)

/-- The history bound of `public/modules/StateManager.js`. -/
def MAX_HISTORY_SIZE : ℕ := 1000

/-- `addToHistory` from `public/modules/StateManager.js`: ignore a null
entry, push the segment, and when the bound is exceeded keep only the
last `MAX_HISTORY_SIZE` entries (`slice(-MAX_HISTORY_SIZE)`). -/
def addToHistory (h : List LineData) : Option LineData → List LineData
  | none => h
  | some ld =>
    let h1 := h ++ [ld]
    if MAX_HISTORY_SIZE < h1.length then h1.drop (h1.length - MAX_HISTORY_SIZE)
    else h1

/-- A sample segment. -/
def ld0 : LineData := ⟨0, 0, 1, 1, "#000000", 4, 0⟩

/-- Another sample segment. -/
def ldA : LineData := ⟨0, 0, 5, 5, "#FF0000", 2, 1⟩

/-- A third sample segment. -/
def ldB : LineData := ⟨5, 5, 9, 9, "#FF0000", 2, 2⟩

/-- A client state with two history entries of which the last is still
pending in the offline buffer. -/
def sampleClient : ClientState :=
  { initialClient with localHistory := [ldA, ldB], offlineBuffer := [ldB],
                       canvas := [ldA, ldB], undoDisabled := false }

/-- Claim C3: the server broadcasts `clear-canvas` to every connected
client, the issuing client included, and a client receiving it wipes its
canvas, empties local history and the offline buffer, and emits nothing. -/
theorem c3_clear_inclusive (conn : List String) (sender : String) (cs : ClientState)
    (hs : sender ∈ conn) :
    (∀ c ∈ conn, ∃ m ∈ (handleClearCanvas ⟨conn⟩).2,
      m.event = "clear-canvas" ∧ delivered conn m c = true) ∧
    (∃ m ∈ (handleClearCanvas ⟨conn⟩).2, delivered conn m sender = true) ∧
    (onClearCanvas cs).1.canvas = [] ∧ (onClearCanvas cs).1.localHistory = [] ∧
    (onClearCanvas cs).1.offlineBuffer = [] ∧ (onClearCanvas cs).2 = [] := by
  refine ⟨?_, ?_, rfl, rfl, rfl, rfl⟩
  · intro c hc
    exact ⟨⟨.toAll, "clear-canvas", .clear⟩, by simp [handleClearCanvas], rfl,
      by simp [delivered, hc]⟩
  · exact ⟨⟨.toAll, "clear-canvas", .clear⟩, by simp [handleClearCanvas],
      by simp [delivered, hs]⟩

/-- Claim C3 witness: with clients `a` and `b` and issuer `a`, every
client (issuer included) gets the clear, and `sampleClient` empties its
canvas, history and buffer on receipt. -/
theorem c3_clear_inclusive_witness :
    (∀ c ∈ ["a", "b"], ∃ m ∈ (handleClearCanvas ⟨["a", "b"]⟩).2,
      m.event = "clear-canvas" ∧ delivered ["a", "b"] m c = true) ∧
    (∃ m ∈ (handleClearCanvas ⟨["a", "b"]⟩).2, delivered ["a", "b"] m "a" = true) ∧
    (onClearCanvas sampleClient).1.canvas = [] ∧
    (onClearCanvas sampleClient).1.localHistory = [] ∧
    (onClearCanvas sampleClient).1.offlineBuffer = [] ∧
    (onClearCanvas sampleClient).2 = [] :=
  c3_clear_inclusive ["a", "b"] "a" sampleClient (by decide)

/-- One offline draw sample appends exactly its segment to the buffer. -/
theorem draw_offline_buffer (s : ClientState) (x y : ℚ) (t : ℤ)
    (hc : s.isConnected = false) (hd : s.isDrawing = true) :
    (draw s x y t).1.offlineBuffer =
      s.offlineBuffer ++ [⟨s.lastX, s.lastY, x, y, s.currentColor, s.brushSize, t⟩] := by
  simp [draw, hc, hd]

/-- Drawing never changes the connection or stroke flags. -/
theorem draw_flags (s : ClientState) (x y : ℚ) (t : ℤ) :
    (draw s x y t).1.isConnected = s.isConnected ∧
    (draw s x y t).1.isDrawing = s.isDrawing := by
  cases hd : s.isDrawing <;> cases hc : s.isConnected <;> simp [draw, hd, hc]

/-- While disconnected and drawing, every sample is appended to the
offline buffer in creation order, and the flags persist. -/
theorem applyDraws_offline (ps : List (ℚ × ℚ × ℤ)) :
    ∀ s : ClientState, s.isConnected = false → s.isDrawing = true →
      (applyDraws s ps).1.offlineBuffer = s.offlineBuffer ++ producedSegs s ps ∧
      (applyDraws s ps).1.isConnected = false ∧
      (applyDraws s ps).1.isDrawing = true := by
  induction ps with
  | nil =>
    intro s hc hd
    exact ⟨by simp [applyDraws, producedSegs], hc, hd⟩
  | cons p ps ih =>
    intro s hc hd
    obtain ⟨x, y, t⟩ := p
    have hflags := draw_flags s x y t
    have hc2 : (draw s x y t).1.isConnected = false := by rw [hflags.1]; exact hc
    have hd2 : (draw s x y t).1.isDrawing = true := by rw [hflags.2]; exact hd
    have hih := ih (draw s x y t).1 hc2 hd2
    refine ⟨?_, hih.2.1, hih.2.2⟩
    show (applyDraws (draw s x y t).1 ps).1.offlineBuffer = _
    rw [hih.1, draw_offline_buffer s x y t hc hd]
    simp [producedSegs]

/-- Concatenation distributes over the draw-event filter. -/
theorem drawEmits_append (a b : List ClientEffect) :
    drawEmits (a ++ b) = drawEmits a ++ drawEmits b := by
  simp [drawEmits, List.filterMap_append]

/-- The draw-event filter undoes wrapping a segment list in draw events. -/
theorem drawEmits_map (l : List LineData) :
    drawEmits (l.map (fun ld => ClientEffect.emitDraw ld)) = l := by
  induction l with
  | nil => rfl
  | cons a l ih => simpa [drawEmits, List.filterMap_cons] using ih

/-- On connect, the flush emits exactly the buffered segments in order and
leaves the buffer empty. -/
theorem onConnect_flush (s : ClientState) :
    drawEmits (onConnect s).2 = s.offlineBuffer ∧
    (onConnect s).1.offlineBuffer = [] := by
  by_cases h0 : s.offlineBuffer.length = 0
  · have hnil : s.offlineBuffer = [] := List.length_eq_zero.mp h0
    constructor
    · simp [onConnect, flushOfflineBuffer, hnil, drawEmits]
    · simp [onConnect, flushOfflineBuffer, hnil]
  · constructor
    · rw [show (onConnect s).2 =
          [ClientEffect.toast restoredMsg, ClientEffect.emitGetUserCount] ++
            (s.offlineBuffer.map (fun ld => ClientEffect.emitDraw ld) ++
              [ClientEffect.toast syncedMsg]) from by
        simp [onConnect, flushOfflineBuffer, h0]]
      rw [drawEmits_append, drawEmits_append, drawEmits_map]
      simp [drawEmits]
    · simp [onConnect, flushOfflineBuffer, h0]

/-- Claim C5: every segment produced while disconnected is appended to the
offline buffer in creation order; on the next connect all of them are
transmitted in that same order and the buffer is empty afterwards. -/
theorem c5_offline_roundtrip (s : ClientState) (ps : List (ℚ × ℚ × ℤ))
    (hconn : s.isConnected = false) (hdraw : s.isDrawing = true) :
    (applyDraws s ps).1.offlineBuffer = s.offlineBuffer ++ producedSegs s ps ∧
    drawEmits (onConnect (applyDraws s ps).1).2 = (applyDraws s ps).1.offlineBuffer ∧
    (onConnect (applyDraws s ps).1).1.offlineBuffer = [] := by
  have hA := applyDraws_offline ps s hconn hdraw
  have hB := onConnect_flush (applyDraws s ps).1
  exact ⟨hA.1, hB.1, hB.2⟩

/-- A disconnected client in the middle of a stroke. -/
def offlineStroke : ClientState :=
  { initialClient with isDrawing := true, isConnected := false }

/-- Claim C5 witness: two samples drawn offline land in the buffer in
order and are both emitted, in order, by the connect handler. -/
theorem c5_offline_roundtrip_witness :
    (applyDraws offlineStroke [(1, 2, 10), (3, 4, 20)]).1.offlineBuffer =
      offlineStroke.offlineBuffer ++ producedSegs offlineStroke [(1, 2, 10), (3, 4, 20)] ∧
    drawEmits (onConnect (applyDraws offlineStroke [(1, 2, 10), (3, 4, 20)]).1).2 =
      (applyDraws offlineStroke [(1, 2, 10), (3, 4, 20)]).1.offlineBuffer ∧
    (onConnect (applyDraws offlineStroke [(1, 2, 10), (3, 4, 20)]).1).1.offlineBuffer = [] :=
  c5_offline_roundtrip offlineStroke [(1, 2, 10), (3, 4, 20)] rfl rfl

/-- A non-empty suffix ends where the whole list ends. -/
theorem getLast_of_suffix {α : Type} (l1 l2 : List α) (h : l1 <:+ l2)
    (hne : l1 ≠ []) : l1.getLast? = l2.getLast? := by
  obtain ⟨t, rfl⟩ := h
  exact (List.getLast?_append_of_ne_nil t hne).symm

/-- Claim C6: on a reachable state (the offline buffer is a suffix of the
local history) with non-empty history, undo removes exactly the newest
history entry, pops the buffer exactly when that entry was still pending
there (the buffer shrinks by its last entry, which is the same segment,
and an empty buffer stays empty), redraws the canvas from the remaining
history in order, and emits no network event. -/
theorem c6_undo_locality (s : ClientState)
    (hinv : s.offlineBuffer <:+ s.localHistory) (hne : s.localHistory ≠ []) :
    (handleUndo s).1.localHistory = s.localHistory.dropLast ∧
    (handleUndo s).1.offlineBuffer = s.offlineBuffer.dropLast ∧
    (s.offlineBuffer ≠ [] → s.offlineBuffer.getLast? = s.localHistory.getLast?) ∧
    (handleUndo s).1.canvas = s.localHistory.dropLast ∧
    (handleUndo s).2 = [] := by
  have hlen : ¬ s.localHistory.length = 0 := by
    simpa [List.length_eq_zero] using hne
  refine ⟨?_, ?_, ?_, ?_, ?_⟩
  · simp [handleUndo, hlen]
  · cases hb : s.offlineBuffer with
    | nil => simp [handleUndo, hlen, hb]
    | cons a l => simp [handleUndo, hlen, hb]
  · intro hbne
    exact getLast_of_suffix _ _ hinv hbne
  · simp [handleUndo, hlen]
  · simp [handleUndo, hlen]

/-- Claim C6 witness: on `sampleClient` (history `[ldA, ldB]`, buffer
`[ldB]`) undo leaves history `[ldA]`, empties the buffer (the popped
buffer entry being the popped history entry `ldB`), redraws `[ldA]` and
emits nothing. -/
theorem c6_undo_locality_witness :
    (handleUndo sampleClient).1.localHistory = sampleClient.localHistory.dropLast ∧
    (handleUndo sampleClient).1.offlineBuffer = sampleClient.offlineBuffer.dropLast ∧
    (sampleClient.offlineBuffer ≠ [] →
      sampleClient.offlineBuffer.getLast? = sampleClient.localHistory.getLast?) ∧
    (handleUndo sampleClient).1.canvas = sampleClient.localHistory.dropLast ∧
    (handleUndo sampleClient).2 = [] :=
  c6_undo_locality sampleClient ⟨[ldA], rfl⟩ (by decide)

/-- One active-stroke sample always appends exactly one history entry,
connected or not. -/
theorem draw_history_length (s : ClientState) (x y : ℚ) (t : ℤ)
    (hd : s.isDrawing = true) :
    (draw s x y t).1.localHistory.length = s.localHistory.length + 1 := by
  cases hc : s.isConnected <;> simp [draw, hd, hc]

/-- The app.js draw path grows local history by one entry per sample,
without any bound. -/
theorem applyDraws_history_length (ps : List (ℚ × ℚ × ℤ)) :
    ∀ s : ClientState, s.isDrawing = true →
      (applyDraws s ps).1.localHistory.length = s.localHistory.length + ps.length := by
  induction ps with
  | nil => intro s _; simp [applyDraws]
  | cons p ps ih =>
    intro s hd
    obtain ⟨x, y, t⟩ := p
    have hd2 : (draw s x y t).1.isDrawing = true := by
      rw [(draw_flags s x y t).2]; exact hd
    show (applyDraws (draw s x y t).1 ps).1.localHistory.length = _
    rw [ih _ hd2, draw_history_length s x y t hd]
    simp
    omega

/-- Claim C7 counterexample: 1001 samples drawn through the `public/app.js`
draw path leave 1001 entries in local history, above the claimed 1000
bound (that path never truncates; only StateManager's `addToHistory`
does). -/
theorem c7_counterexample :
    (applyDraws { initialClient with isDrawing := true, isConnected := true }
        (List.replicate 1001 ((0 : ℚ), (0 : ℚ), (0 : ℤ)))).1.localHistory.length = 1001 ∧
    1000 < 1001 := by
  constructor
  · rw [applyDraws_history_length _ _ rfl, List.length_replicate]
    rfl
  · decide

/-- Claim C7 (amended): the StateManager history bound holds for its
`addToHistory`: starting at or below 1000 entries, an append stays at or
below 1000, yields a suffix of the appended sequence (so only oldest
entries are dropped, silently), keeps the newest entry, and drops nothing
while strictly below the bound.  The `public/app.js` draw path, by
contrast, appends without bound (see the counterexample). -/
theorem c7_history_bound_amended (h : List LineData) (ld : LineData)
    (hb : h.length ≤ MAX_HISTORY_SIZE) :
    (addToHistory h (some ld)).length ≤ MAX_HISTORY_SIZE ∧
    addToHistory h (some ld) <:+ h ++ [ld] ∧
    (addToHistory h (some ld)).getLast? = some ld ∧
    (h.length < MAX_HISTORY_SIZE → addToHistory h (some ld) = h ++ [ld]) := by
  have hlen1 : (h ++ [ld]).length = h.length + 1 := by simp
  by_cases hover : MAX_HISTORY_SIZE < h.length + 1
  · have hres : addToHistory h (some ld) =
        (h ++ [ld]).drop (h.length + 1 - MAX_HISTORY_SIZE) := by
      simp [addToHistory, hover]
    have hsuf : addToHistory h (some ld) <:+ h ++ [ld] := by
      rw [hres]; exact List.drop_suffix _ _
    have hlen : (addToHistory h (some ld)).length = MAX_HISTORY_SIZE := by
      rw [hres, List.length_drop, hlen1]
      omega
    have hnenil : addToHistory h (some ld) ≠ [] := by
      intro hnil
      rw [hnil] at hlen
      simp [MAX_HISTORY_SIZE] at hlen
    refine ⟨le_of_eq hlen, hsuf, ?_, ?_⟩
    · rw [getLast_of_suffix _ _ hsuf hnenil, List.getLast?_concat]
    · intro hlt
      exfalso
      omega
  · have hres : addToHistory h (some ld) = h ++ [ld] := by
      simp [addToHistory, hover]
    refine ⟨?_, ?_, ?_, fun _ => hres⟩
    · rw [hres, hlen1]; omega
    · rw [hres]
    · rw [hres, List.getLast?_concat]

/-- Claim C7 amended-part witness: appending `ldB` to the one-entry
history `[ldA]` keeps the bound, is a suffix of the appended sequence,
keeps `ldB` last, and drops nothing. -/
theorem c7_history_bound_amended_witness :
    (addToHistory [ldA] (some ldB)).length ≤ MAX_HISTORY_SIZE ∧
    addToHistory [ldA] (some ldB) <:+ [ldA] ++ [ldB] ∧
    (addToHistory [ldA] (some ldB)).getLast? = some ldB ∧
    ((ldA :: []).length < MAX_HISTORY_SIZE → addToHistory [ldA] (some ldB) = [ldA] ++ [ldB]) :=
  c7_history_bound_amended [ldA] ldB (by decide)

/-- A disconnected client with an over-threshold offline buffer, in the
middle of a stroke. -/
def overfullOffline : ClientState :=
  { initialClient with isDrawing := true, isConnected := false,
                       offlineBuffer := List.replicate 101 ld0,
                       localHistory := List.replicate 101 ld0 }

/-- Claim C8 counterexample: disconnected with 101 buffered segments (over
the threshold), a pointer sample of the stroke already in progress is NOT
rejected — the code appends a 102nd segment to the buffer and to history,
contradicting the claim that no new segment is appended anywhere. -/
theorem c8_counterexample :
    overfullOffline.isConnected = false ∧
    100 < overfullOffline.offlineBuffer.length ∧
    (draw overfullOffline 5 5 1000).1.offlineBuffer.length = 102 ∧
    (draw overfullOffline 5 5 1000).1.localHistory.length = 102 := by
  refine ⟨rfl, ?_, ?_, ?_⟩
  · simp [overfullOffline, List.length_replicate]
  · rw [draw_offline_buffer overfullOffline 5 5 1000 rfl rfl]
    simp [overfullOffline, List.length_replicate]
  · rw [draw_history_length overfullOffline 5 5 1000 rfl]
    simp [overfullOffline, List.length_replicate]

/-- Claim C8 (amended): disconnected with more than 100 buffered segments,
starting a new stroke is rejected — mouse-down with the user-facing
notice, touch-start silently — leaving the state (hence every buffered
segment) untouched, and while no stroke is active a pointer-move sample
is a no-op; samples of a stroke already in progress are still appended
(see the counterexample). -/
theorem c8_overflow_guard_amended (s : ClientState) (x y : ℚ) (t : ℤ)
    (hconn : s.isConnected = false) (hover : 100 < s.offlineBuffer.length) :
    startDrawing s x y = (s, [.toast offlineLimitMsg]) ∧
    handleTouchStart s x y = (s, []) ∧
    (s.isDrawing = false → draw s x y t = (s, [])) := by
  have hg : (!s.isConnected && decide (100 < s.offlineBuffer.length)) = true := by
    simp [hconn, hover]
  refine ⟨?_, ?_, ?_⟩
  · simp [startDrawing, hg]
  · simp [handleTouchStart, hg]
  · intro hd
    simp [draw, hd]

/-- A client with an over-threshold offline buffer and no active stroke. -/
def overfullIdle : ClientState := { overfullOffline with isDrawing := false }

/-- Claim C8 witness: on `overfullIdle`, mouse-down is rejected with the
notice, touch-start silently, and a stray move sample is a no-op. -/
theorem c8_overflow_guard_amended_witness :
    startDrawing overfullIdle 5 5 = (overfullIdle, [.toast offlineLimitMsg]) ∧
    handleTouchStart overfullIdle 5 5 = (overfullIdle, []) ∧
    (overfullIdle.isDrawing = false → draw overfullIdle 5 5 7 = (overfullIdle, [])) :=
  c8_overflow_guard_amended overfullIdle 5 5 7 rfl
    (by simp [overfullIdle, overfullOffline, List.length_replicate])

/-- Throttled drawing never changes the connection flag, the stroke flag,
or the throttle interval. -/
theorem drawThrottled_flags (s : ClientState) (x y : ℚ) (t : ℤ) :
    (drawThrottled s x y t).1.isConnected = s.isConnected ∧
    (drawThrottled s x y t).1.isDrawing = s.isDrawing ∧
    (drawThrottled s x y t).1.throttleDelay = s.throttleDelay := by
  cases hd : s.isDrawing <;> cases hc : s.isConnected <;>
    by_cases hemit : s.throttleDelay ≤ t - s.lastEmitTime <;>
      simp [drawThrottled, hd, hc, hemit]

/-- A connected sample past the throttle interval emits its segment and
restamps the throttle timer. -/
theorem drawThrottled_emit (s : ClientState) (x y : ℚ) (t : ℤ)
    (hc : s.isConnected = true) (hd : s.isDrawing = true)
    (hge : s.throttleDelay ≤ t - s.lastEmitTime) :
    (drawThrottled s x y t).2 =
      [.emitDraw ⟨s.lastX, s.lastY, x, y, s.currentColor, s.brushSize, t⟩] ∧
    (drawThrottled s x y t).1.lastEmitTime = t := by
  simp [drawThrottled, hc, hd, hge]

/-- A connected sample within the throttle interval emits nothing and
keeps the timer. -/
theorem drawThrottled_skip (s : ClientState) (x y : ℚ) (t : ℤ)
    (hc : s.isConnected = true) (hd : s.isDrawing = true)
    (hlt : ¬ s.throttleDelay ≤ t - s.lastEmitTime) :
    (drawThrottled s x y t).2 = [] ∧
    (drawThrottled s x y t).1.lastEmitTime = s.lastEmitTime := by
  simp [drawThrottled, hc, hd, hlt]

/-- Each active-stroke sample renders exactly one segment locally, whether
or not the network send was throttled. -/
theorem drawThrottled_canvas (s : ClientState) (x y : ℚ) (t : ℤ)
    (hd : s.isDrawing = true) :
    (drawThrottled s x y t).1.canvas.length = s.canvas.length + 1 := by
  cases hc : s.isConnected <;>
    by_cases hemit : s.throttleDelay ≤ t - s.lastEmitTime <;>
      simp [drawThrottled, hd, hc, hemit]

/-- Locally rendered segments equal the raw sample count. -/
theorem applyThrottledDraws_canvas_length (ps : List (ℚ × ℚ × ℤ)) :
    ∀ s : ClientState, s.isDrawing = true →
      (applyThrottledDraws s ps).1.canvas.length = s.canvas.length + ps.length := by
  induction ps with
  | nil => intro s _; simp [applyThrottledDraws]
  | cons p ps ih =>
    intro s hd
    obtain ⟨x, y, t⟩ := p
    have hd2 : (drawThrottled s x y t).1.isDrawing = true := by
      rw [(drawThrottled_flags s x y t).2.1]; exact hd
    show (applyThrottledDraws (drawThrottled s x y t).1 ps).1.canvas.length = _
    rw [ih _ hd2, drawThrottled_canvas s x y t hd]
    simp
    omega

/-- Throttle cadence invariant: if every sample time is at most `T` and
the timer reads at most `T`, the interval times the number of emitted
segments is at most the time left until `T`.  Each emission restamps the
timer, so consecutive emissions are at least one interval apart. -/
theorem throttledDraws_emit_bound (ps : List (ℚ × ℚ × ℤ)) :
    ∀ (s : ClientState) (T : ℤ), s.isConnected = true → s.isDrawing = true →
      (∀ q ∈ ps, q.2.2 ≤ T) → s.lastEmitTime ≤ T →
      s.throttleDelay * ((drawEmits (applyThrottledDraws s ps).2).length : ℤ) ≤
        T - s.lastEmitTime := by
  induction ps with
  | nil =>
    intro s T _ _ _ hl
    simp only [applyThrottledDraws, drawEmits, List.filterMap_nil, List.length_nil,
      Nat.cast_zero, mul_zero]
    omega
  | cons p ps ih =>
    intro s T hc hd hub hl
    obtain ⟨x, y, t⟩ := p
    have ht : t ≤ T := hub (x, y, t) (List.mem_cons_self _ _)
    have hub2 : ∀ q ∈ ps, q.2.2 ≤ T := fun q hq => hub q (List.mem_cons_of_mem _ hq)
    have hflags := drawThrottled_flags s x y t
    have hc2 : (drawThrottled s x y t).1.isConnected = true := by
      rw [hflags.1]; exact hc
    have hd2 : (drawThrottled s x y t).1.isDrawing = true := by
      rw [hflags.2.1]; exact hd
    show s.throttleDelay *
        ((drawEmits ((drawThrottled s x y t).2 ++
          (applyThrottledDraws (drawThrottled s x y t).1 ps).2)).length : ℤ) ≤
        T - s.lastEmitTime
    rw [drawEmits_append, List.length_append]
    by_cases hemit : s.throttleDelay ≤ t - s.lastEmitTime
    · have hstep := drawThrottled_emit s x y t hc hd hemit
      have hone : (drawEmits (drawThrottled s x y t).2).length = 1 := by
        rw [hstep.1]; rfl
      have hbound := ih (drawThrottled s x y t).1 T hc2 hd2 hub2
        (by rw [hstep.2]; exact ht)
      rw [hflags.2.2, hstep.2] at hbound
      rw [hone]
      push_cast
      have hexp : s.throttleDelay *
          (1 + ((drawEmits (applyThrottledDraws (drawThrottled s x y t).1 ps).2).length : ℤ)) =
          s.throttleDelay +
            s.throttleDelay *
              ((drawEmits (applyThrottledDraws (drawThrottled s x y t).1 ps).2).length : ℤ) := by
        ring
      rw [hexp]
      linarith [hbound, hemit]
    · have hstep := drawThrottled_skip s x y t hc hd hemit
      have hzero : (drawEmits (drawThrottled s x y t).2).length = 0 := by
        rw [hstep.1]; rfl
      have hbound := ih (drawThrottled s x y t).1 T hc2 hd2 hub2
        (by rw [hstep.2]; exact hl)
      rw [hflags.2.2, hstep.2] at hbound
      rw [hzero]
      simpa using hbound

/-- A connected client at the start of a throttled stroke (timer reset,
50 ms interval as in the throttled version). -/
def strokeStart : ClientState :=
  { initialClient with isDrawing := true, isConnected := true,
                       lastEmitTime := 0, throttleDelay := 50 }

/-- Claim C9 counterexample: a stroke consisting of a single sample at
time 1000 has elapsed time 0, yet one segment is transmitted — the timer
was reset to 0 at stroke start, so the first sample always emits; the
claimed bound, elapsed time divided by the 50 ms interval, is 0 and is
exceeded. -/
theorem c9_counterexample :
    (drawEmits (applyThrottledDraws strokeStart [(1, 2, 1000)]).2).length = 1 ∧
    ((1000 : ℤ) - 1000) / 50 = 0 ∧
    ¬ ((drawEmits (applyThrottledDraws strokeStart [(1, 2, 1000)]).2).length : ℤ) ≤
        ((1000 : ℤ) - 1000) / 50 := by decide

/-- Claim C9 (amended): when throttling is enabled, for a stroke whose
samples all lie in the window from the first sample time `t0` up to `T`,
the number of network-transmitted segments exceeds the elapsed time
divided by the throttle interval by at most one (consecutive sends are at
least one interval apart); locally rendered segments equal the raw sample
count; and starting a stroke (when the capacity guard does not trip)
resets the throttle timer to 0. -/
theorem c9_throttle_amended (s : ClientState) (x0c y0c : ℚ) (t0 : ℤ)
    (rest : List (ℚ × ℚ × ℤ)) (T : ℤ) (sb : ClientState) (xb yb : ℚ)
    (hc : s.isConnected = true) (hd : s.isDrawing = true)
    (hreset : s.lastEmitTime = 0)
    (ht0 : 0 ≤ t0) (hT : t0 ≤ T) (hub : ∀ q ∈ rest, q.2.2 ≤ T)
    (hguard : (!sb.isConnected && decide (100 < sb.offlineBuffer.length)) = false) :
    s.throttleDelay *
        (((drawEmits (applyThrottledDraws s ((x0c, y0c, t0) :: rest)).2).length : ℤ) - 1) ≤
      T - t0 ∧
    (applyThrottledDraws s ((x0c, y0c, t0) :: rest)).1.canvas.length =
      s.canvas.length + ((x0c, y0c, t0) :: rest).length ∧
    (startDrawing sb xb yb).1.lastEmitTime = 0 := by
  refine ⟨?_, applyThrottledDraws_canvas_length _ _ hd, ?_⟩
  · have hflags := drawThrottled_flags s x0c y0c t0
    have hc2 : (drawThrottled s x0c y0c t0).1.isConnected = true := by
      rw [hflags.1]; exact hc
    have hd2 : (drawThrottled s x0c y0c t0).1.isDrawing = true := by
      rw [hflags.2.1]; exact hd
    show s.throttleDelay *
        (((drawEmits ((drawThrottled s x0c y0c t0).2 ++
          (applyThrottledDraws (drawThrottled s x0c y0c t0).1 rest).2)).length : ℤ) - 1) ≤
        T - t0
    rw [drawEmits_append, List.length_append]
    by_cases hemit : s.throttleDelay ≤ t0 - s.lastEmitTime
    · have hstep := drawThrottled_emit s x0c y0c t0 hc hd hemit
      have hone : (drawEmits (drawThrottled s x0c y0c t0).2).length = 1 := by
        rw [hstep.1]; rfl
      have hbound := throttledDraws_emit_bound rest (drawThrottled s x0c y0c t0).1 T
        hc2 hd2 hub (by rw [hstep.2]; exact hT)
      rw [hflags.2.2, hstep.2] at hbound
      rw [hone]
      have hexp : ((1 +
          (drawEmits (applyThrottledDraws (drawThrottled s x0c y0c t0).1 rest).2).length : ℕ) :
            ℤ) - 1 =
          ((drawEmits (applyThrottledDraws (drawThrottled s x0c y0c t0).1 rest).2).length :
            ℤ) := by
        push_cast
        ring
      rw [hexp]
      exact hbound
    · have hstep := drawThrottled_skip s x0c y0c t0 hc hd hemit
      have hzero : (drawEmits (drawThrottled s x0c y0c t0).2).length = 0 := by
        rw [hstep.1]; rfl
      have hbound := throttledDraws_emit_bound rest (drawThrottled s x0c y0c t0).1 T
        hc2 hd2 hub (by rw [hstep.2, hreset]; omega)
      rw [hflags.2.2, hstep.2, hreset] at hbound
      rw [hzero]
      rw [hreset] at hemit
      have ht0d : t0 < s.throttleDelay := by omega
      have hexp : s.throttleDelay *
          (((0 +
            (drawEmits (applyThrottledDraws (drawThrottled s x0c y0c t0).1 rest).2).length :
              ℕ) : ℤ) - 1) =
          s.throttleDelay *
            ((drawEmits (applyThrottledDraws (drawThrottled s x0c y0c t0).1 rest).2).length :
              ℤ) - s.throttleDelay := by
        push_cast
        ring
      rw [hexp]
      linarith [hbound]
  · simp [startDrawing, hguard]

/-- Claim C9 witness: a two-sample stroke at times 1000 and 1010 with a
50 ms interval from `strokeStart` transmits once (the second sample is
throttled): the bound holds, both samples render locally, and starting a
stroke from the initial client resets the timer. -/
theorem c9_throttle_amended_witness :
    strokeStart.throttleDelay *
        (((drawEmits (applyThrottledDraws strokeStart
            ((0, 0, 1000) :: [(1, 1, 1010)])).2).length : ℤ) - 1) ≤
      1010 - 1000 ∧
    (applyThrottledDraws strokeStart ((0, 0, 1000) :: [(1, 1, 1010)])).1.canvas.length =
      strokeStart.canvas.length + ((0, 0, 1000) :: [((1 : ℚ), (1 : ℚ), (1010 : ℤ))]).length ∧
    (startDrawing initialClient 0 0).1.lastEmitTime = 0 :=
  c9_throttle_amended strokeStart 0 0 1000 [(1, 1, 1010)] 1010 initialClient 0 0
    rfl rfl rfl (by decide) (by decide) (by decide) (by decide)
